import Mathlib

/-!
Shallow embedding of `media_organizer.py`.

The repository is a single Python script that reorganizes media files into a
`<target>/YYYY/MM/` layout.  We model its pure logic directly, and its
filesystem / external collaborators as explicit data:

* the filesystem is an association list from path strings to `FileInfo`
  (size, SHA-256 fingerprint and an abstract content identifier), plus a list
  of directories and an association list of log files (path to list of lines);
* external collaborators (exiftool tag reading, sidecar JSON parsing, mtime
  reading, transliteration, wall-clock time) are fields of an `Env` record,
  exactly the values the Python code receives back from them;
* `process_file`, `resolve_conflict`, `backup_existing_log`, `log_move`,
  `correct_timestamps`, `update_timestamps`, `extract_date_from_filename`
  and the argument handling of `main` are translated statement by statement.

The post-move `exiftool` and `os.utime` invocations act on a `FileTimes`
record of one file (embedded capture tag, filesystem modification and
creation dates); they do not change the modeled size/fingerprint of a file.
-/

set_option linter.all false

/-! ## Association-list filesystem primitives -/

def lookupA {α : Type} (l : List (String × α)) (k : String) : Option α :=
  match l with
  | [] => none
  | (k1, v) :: t => if k1 = k then some v else lookupA t k

def hasKeyA {α : Type} (l : List (String × α)) (k : String) : Bool :=
  (lookupA l k).isSome

def setA {α : Type} (l : List (String × α)) (k : String) (v : α) : List (String × α) :=
  match l with
  | [] => [(k, v)]
  | (k1, v1) :: t => if k1 = k then (k, v) :: t else (k1, v1) :: setA t k v

def delA {α : Type} (l : List (String × α)) (k : String) : List (String × α) :=
  match l with
  | [] => []
  | (k1, v1) :: t => if k1 = k then delA t k else (k1, v1) :: delA t k

@[simp]
theorem lookupA_setA_self {α : Type} (l : List (String × α)) (k : String) (v : α) :
    lookupA (setA l k v) k = some v := by
  induction l with
  | nil => simp [setA, lookupA]
  | cons hd t ih =>
    obtain ⟨k2, v2⟩ := hd
    by_cases h2 : k2 = k
    · simp [setA, h2, lookupA]
    · simp [setA, h2, lookupA, ih]

theorem lookupA_setA_ne {α : Type} (l : List (String × α)) (k k1 : String) (v : α)
    (h : ¬ k1 = k) : lookupA (setA l k v) k1 = lookupA l k1 := by
  have h1 : ¬ k = k1 := fun hh => h hh.symm
  induction l with
  | nil => simp [setA, lookupA, h1]
  | cons hd t ih =>
    obtain ⟨k2, v2⟩ := hd
    by_cases h2 : k2 = k
    · subst h2
      simp [setA, lookupA, h1]
    · simp only [setA, if_neg h2, lookupA]
      by_cases h3 : k2 = k1
      · simp [h3]
      · simp [h3, ih]

@[simp]
theorem lookupA_delA_self {α : Type} (l : List (String × α)) (k : String) :
    lookupA (delA l k) k = none := by
  induction l with
  | nil => simp [delA, lookupA]
  | cons hd t ih =>
    obtain ⟨k2, v2⟩ := hd
    by_cases h2 : k2 = k
    · simp [delA, h2, ih]
    · simp [delA, h2, lookupA, ih]

theorem lookupA_delA_ne {α : Type} (l : List (String × α)) (k k1 : String)
    (h : ¬ k1 = k) : lookupA (delA l k) k1 = lookupA l k1 := by
  induction l with
  | nil => simp [delA]
  | cons hd t ih =>
    obtain ⟨k2, v2⟩ := hd
    by_cases h2 : k2 = k
    · subst h2
      have h3 : ¬ k2 = k1 := fun hh => h hh.symm
      simp [delA, lookupA, h3, ih]
    · simp only [delA, if_neg h2, lookupA]
      by_cases h3 : k2 = k1
      · simp [h3]
      · simp [h3, ih]

/-! ## Characters, names and path components

Paths are strings; the helpers below mirror what `pathlib` provides to the
script: a final component (`name`), the last dot-suffix of that component
(`suffix`, empty when the dot is leading, trailing or absent), the stem, and
`with_suffix` used for the `.THM` thumbnail companion.
-/

def nameChars (l : List Char) : List Char :=
  ((l.reverse.takeWhile (fun c => ¬ (c = '/'))).reverse)

def dirPartChars (l : List Char) : List Char :=
  l.take (l.length - (nameChars l).length)

def nameOf (p : String) : String := ⟨nameChars p.data⟩

def lastDotIdx (name : List Char) : Option Nat :=
  match List.findIdx? (fun c => c = '.') name.reverse with
  | some r => some (name.length - 1 - r)
  | none => none

def suffixChars (name : List Char) : List Char :=
  match lastDotIdx name with
  | some i => if 0 < i ∧ i < name.length - 1 then name.drop i else []
  | none => []

def stemChars (name : List Char) : List Char :=
  name.take (name.length - (suffixChars name).length)

def pathSuffix (p : String) : String := ⟨suffixChars (nameChars p.data)⟩

def pathStem (p : String) : String := ⟨stemChars (nameChars p.data)⟩

/-- `src_file.with_suffix(".THM")`: directory part plus stem plus `.THM`. -/
def thmPathOf (p : String) : String :=
  ⟨dirPartChars p.data ++ stemChars (nameChars p.data) ++ ('.' :: 'T' :: 'H' :: 'M' :: [])⟩

def lowerStr (s : String) : String := ⟨s.data.map Char.toLower⟩

/-- `src_file.suffix.lower()[1:]` -/
def extOf (p : String) : String := ⟨((lowerStr (pathSuffix p)).data).drop 1⟩

/-! ## The date-string formats used by the script -/

/-- The anchored full-date check of line 297: `re.match` with the pattern
of four digits, dash, two digits, dash, two digits, space, two digits,
colon, two digits, colon, two digits, anchored at both ends. -/
def isFullDate (s : String) : Bool :=
  match s.data with
  | [a, b, c, d, e, f, g, h, i, j, k, l, m, n, o, p, q, r, t] =>
    a.isDigit && b.isDigit && c.isDigit && d.isDigit && e = '-' &&
    f.isDigit && g.isDigit && h = '-' && i.isDigit && j.isDigit &&
    k = ' ' && l.isDigit && m.isDigit && n = ':' && o.isDigit && p.isDigit &&
    q = ':' && r.isDigit && t.isDigit
  | _ => false

/-- The sentinel check of line 263: `re.match` with the all-zero pattern
whose two date separators may each be a dash or a colon; `re.match` anchors
only at the start, so this is a prefix match. -/
def zeroSentinel (s : String) : Bool :=
  match s.data with
  | '0' :: '0' :: '0' :: '0' :: a :: '0' :: '0' :: b :: '0' :: '0' :: ' ' ::
    '0' :: '0' :: ':' :: '0' :: '0' :: ':' :: '0' :: '0' :: _ =>
    (a = '-' || a = ':') && (b = '-' || b = ':')
  | _ => false

def charVal (c : Char) : Nat := c.toNat - '0'.toNat

def natOfDigits (l : List Char) : Nat :=
  l.foldl (fun acc c => acc * 10 + charVal c) 0

def pad2 (n : Nat) : String := if n < 10 then "0" ++ toString n else toString n

def pad4 (n : Nat) : String :=
  if n < 10 then "000" ++ toString n
  else if n < 100 then "00" ++ toString n
  else if n < 1000 then "0" ++ toString n
  else toString n

def fmtDate (y mo d h mi s : Nat) : String :=
  pad4 y ++ "-" ++ pad2 mo ++ "-" ++ pad2 d ++ " " ++ pad2 h ++ ":" ++ pad2 mi ++ ":" ++ pad2 s

def isLeap (y : Nat) : Bool := (y % 4 = 0 && ¬ (y % 100 = 0)) || y % 400 = 0

def daysInMonth (y mo : Nat) : Nat :=
  if mo = 2 then (if isLeap y then 29 else 28)
  else if mo = 4 || mo = 6 || mo = 9 || mo = 11 then 30
  else 31

/-- Validity of the numbers as a `datetime`: what `strptime` enforces. -/
def validDateTime (y mo d h mi s : Nat) : Bool :=
  1 ≤ y && y ≤ 9999 && 1 ≤ mo && mo ≤ 12 && 1 ≤ d && d ≤ daysInMonth y mo &&
  h ≤ 23 && mi ≤ 59 && s ≤ 59

/-- Does the pattern `\d{8}_\d{6}` match at the head of the list?  If so,
return the 15 matched characters. -/
def matchAt (l : List Char) : Option (List Char) :=
  let seg := l.take 15
  if seg.length = 15 && (seg.take 8).all Char.isDigit &&
      seg.get? 8 = some '_' && (seg.drop 9).all Char.isDigit
  then some seg else none

/-- `re.search` with the pattern of eight digits, underscore, six digits:
leftmost match of a fixed-width pattern, found by scanning start positions
left to right. -/
def findPattern : List Char → Option (List Char)
  | [] => none
  | c :: rest =>
    match matchAt (c :: rest) with
    | some seg => some seg
    | none => findPattern rest

/-- `extract_date_from_filename`: find `YYYYMMDD_HHMMSS` in the name, check it
is a valid calendar date and time, and reformat it; `None` otherwise. -/
def extract_date_from_filename (filename : String) : Option String :=
  match findPattern filename.data with
  | none => none
  | some seg =>
    let y := natOfDigits (seg.take 4)
    let mo := natOfDigits ((seg.drop 4).take 2)
    let d := natOfDigits ((seg.drop 6).take 2)
    let h := natOfDigits ((seg.drop 9).take 2)
    let mi := natOfDigits ((seg.drop 11).take 2)
    let se := natOfDigits ((seg.drop 13).take 2)
    if validDateTime y mo d h mi se then some (fmtDate y mo d h mi se) else none

/-- `exif_date.split('-')`, on the character list. -/
def splitDash : List Char → List (List Char)
  | [] => [[]]
  | c :: rest =>
    if c = '-' then [] :: splitDash rest
    else
      match splitDash rest with
      | h :: t => (c :: h) :: t
      | [] => [[c]]

/-- `year, month = exif_date.split('-')[:2]` -/
def yearMonthOf (d : String) : String × String :=
  match splitDash d.data with
  | y :: m :: _ => (⟨y⟩, ⟨m⟩)
  | [y] => (⟨y⟩, "")
  | [] => ("", "")

/-- The Cyrillic test of line 308: `re.search` with the character class of
the two contiguous ranges U+0410 to U+042F and U+0430 to U+044F.  Note this
does not cover the whole Cyrillic block. -/
def isRuAZ (c : Char) : Bool := 0x410 ≤ c.toNat && c.toNat ≤ 0x44F

def containsRu (s : String) : Bool := s.data.any isRuAZ

/-- A character of the Unicode Cyrillic block, as the specification words
"any Cyrillic character" read; used to compare the spec against the code. -/
def isCyrillicCodepoint (c : Char) : Bool := 0x400 ≤ c.toNat && c.toNat ≤ 0x4FF

def containsCyrillic (s : String) : Bool := s.data.any isCyrillicCodepoint

/-! ## The modeled run state and environment -/

/-- One filesystem object: its byte size, its SHA-256 fingerprint (the value
`sha256sum_file` would return) and an abstract content identity. -/
structure FileInfo where
  size : Nat
  hash : Nat
  content : Nat
deriving DecidableEq, Repr

/-- The mutable state a run threads through `process_file`: media and
companion files, directories, log files (lists of lines) and the
`backed_up_logs` set of month keys. -/
structure St where
  files : List (String × FileInfo)
  logs : List (String × List String)
  dirs : List String
  backedUp : List String
deriving DecidableEq, Repr

/-- The external collaborators, as the values they hand back to the script:
`exiftool` tag reading (`get_exif_date`), sidecar JSON parsing
(`parse_json_metadata`, `None` on malformed input or a missing field), the
formatted filesystem mtime, the wall-clock stamps used in names and log
lines, and the transliteration library. -/
structure Env where
  exif : String → String → String
  jsonMeta : String → Option String
  mtimeStr : String → String
  nowStamp : String
  nowIso : String
  translit : String → String

structure Config where
  targetRoot : String
  preview : Bool
  fallbackToMtime : Bool
  removeDuplicates : Bool
deriving Repr

/-- The per-item classification reached by `process_file`, with the
destination path for the relocating outcomes. -/
inductive Decision where
  | skippedNoDate
  | skippedInvalid
  | errored
  | dupRemoved
  | dupSkipped
  | conflictSized (tgt : String)
  | conflictCopy (tgt : String)
  | plainMove (tgt : String)
deriving DecidableEq, Repr

structure PFResult where
  st : St
  decision : Decision
  hashed : Bool
  rotated : Option String
deriving DecidableEq, Repr

/-! ## Extension tables and the naming helpers of `process_file` -/

def imageExts : List String :=
  ["jpg", "jpeg", "png", "heic", "heif", "webp", "dng"]

def videoExts : List String :=
  ["mp4", "mov", "mpg", "avi", "mts", "m2ts", "3gp", "3g2", "wmv"]

def mediaTag (ext : String) : String :=
  if imageExts.contains ext then "DateTimeOriginal" else "CreateDate"

def globalLogPath (cfg : Config) : String := cfg.targetRoot ++ "/media_organizer.log"

def destDirFor (cfg : Config) (d : String) : String :=
  cfg.targetRoot ++ "/" ++ (yearMonthOf d).1 ++ "/" ++ (yearMonthOf d).2

def monthLogFor (cfg : Config) (d : String) : String :=
  destDirFor cfg d ++ "/media_organizer.log"

def monthKeyFor (d : String) : String := (yearMonthOf d).1 ++ "-" ++ (yearMonthOf d).2

def tgtNameFor (env : Env) (base : String) : String :=
  if containsRu base then env.translit base else base

def plainTargetFor (cfg : Config) (env : Env) (d base : String) : String :=
  destDirFor cfg d ++ "/" ++ tgtNameFor env base

/-- `resolve_conflict`: destination under the `conflicts/` subdirectory,
keeping the file name. -/
def resolve_conflict (base destDir : String) : String :=
  destDir ++ "/conflicts/" ++ base

/-- The `_copy_` name synthesized on a fingerprint mismatch. -/
def copyNameFor (env : Env) (base : String) : String :=
  (⟨stemChars base.data⟩ : String) ++ "_copy_" ++ env.nowStamp ++ (⟨suffixChars base.data⟩ : String)

/-! ## Log bookkeeping -/

def addDir (l : List String) (d : String) : List String :=
  if l.contains d then l else l ++ [d]

/-- Least index `i ≥ start` whose backup name is unused, found with enough
fuel to get past every existing key. -/
def firstFreeFrom (logs : List (String × List String)) (p : String) :
    Nat → Nat → Nat
  | 0, i => i
  | Nat.succ fuel, i =>
    if hasKeyA logs (p ++ "." ++ toString i) then firstFreeFrom logs p fuel (i + 1)
    else i

def firstFreeIndex (logs : List (String × List String)) (p : String) : Nat :=
  firstFreeFrom logs p (logs.length + 1) 1

/-- `backup_existing_log`: copy the log to `<name>.<N>` for the first unused
index `N ≥ 1`.  The script only calls it when the log exists. -/
def backup_existing_log (logs : List (String × List String)) (p : String) :
    List (String × List String) :=
  match lookupA logs p with
  | none => logs
  | some content => setA logs (p ++ "." ++ toString (firstFreeIndex logs p)) content

/-- The monthly-log rotation block of `process_file`: under the lock, if the
month key is not yet in `backed_up_logs` and the monthly log exists, back it
up, delete it, and record the key. -/
def phaseRotate (st : St) (key logPath : String) : St × Option String :=
  if ¬ st.backedUp.contains key ∧ hasKeyA st.logs logPath then
    ({ st with
        logs := delA (backup_existing_log st.logs logPath) logPath,
        backedUp := key :: st.backedUp }, some key)
  else (st, none)

def logEntry (env : Env) (src tgt : String) : String :=
  env.nowIso ++ " | " ++ src ++ " -> " ++ tgt

def appendLog (logs : List (String × List String)) (p e : String) :
    List (String × List String) :=
  setA logs p (((lookupA logs p).getD []) ++ [e])

/-- `log_move`: append the entry to the global log, then the monthly log. -/
def log_move (logs : List (String × List String)) (gp mp e : String) :
    List (String × List String) :=
  appendLog (appendLog logs gp e) mp e

/-! ## Moves -/

/-- `shutil.move` of a plain file onto a file path: the destination is
replaced (single-volume rename semantics). -/
def moveFile (files : List (String × FileInfo)) (src tgt : String) :
    List (String × FileInfo) :=
  match lookupA files src with
  | none => files
  | some info => setA (delA files src) tgt info

/-- Moving a companion (`shutil.move(p, dest_dir)`): lands at
`dest_dir/<name>`; if that path is occupied `shutil.move` raises, the outer
handler catches it, and the remaining statements of the item are skipped
(second component `false`). -/
def moveCompanion (cfg : Config) (env : Env) (st : St) (p destDir monthLog : String) :
    St × Bool :=
  if hasKeyA st.files p then
    let tgt := destDir ++ "/" ++ nameOf p
    if hasKeyA st.files tgt then (st, false)
    else
      ({ st with
          files := moveFile st.files p tgt,
          logs := log_move st.logs (globalLogPath cfg) monthLog (logEntry env p tgt) }, true)
  else (st, true)

/-- The tail of `process_file` after the final target path is fixed: in
preview only report; otherwise move the primary file (if it still exists),
log it, then move the thumbnail and the JSON companion. -/
def finishMove (cfg : Config) (env : Env) (st : St) (src tgt destDir monthLog : String)
    (mk : String → Decision) (hashed : Bool) (rotated : Option String) : PFResult :=
  if cfg.preview then ⟨st, mk tgt, hashed, rotated⟩
  else
    let st1 :=
      if hasKeyA st.files src then
        { st with
            files := moveFile st.files src tgt,
            logs := log_move st.logs (globalLogPath cfg) monthLog (logEntry env src tgt) }
      else st
    let r1 := moveCompanion cfg env st1 (thmPathOf src) destDir monthLog
    let st2 := if r1.2 then (moveCompanion cfg env r1.1 (src ++ ".json") destDir monthLog).1 else r1.1
    ⟨st2, mk tgt, hashed, rotated⟩

/-! ## The date-resolution chain (lines 252 to 295 of the script)

The chain is an if/elif ladder: EXIF tag, else (if the sidecar exists) the
sidecar, else (if the thumbnail exists) the thumbnail tag, else the filename
pattern, else mtime when enabled, else an early "no valid date" return.  When
a taken branch produces nothing, `exif_date` keeps its previous value.
`none` models the early return; otherwise the candidate string is returned
together with the recorded methods. -/
def resolveChain (fallbackToMtime : Bool) (env : Env) (st : St) (src : String) :
    Option (String × List String) :=
  let ext := extOf src
  let base := nameOf src
  let jsonP := src ++ ".json"
  let thmP := thmPathOf src
  let exif0 := env.exif src (mediaTag ext)
  let filenameDate := extract_date_from_filename base
  if ¬ exif0 = "" ∧ ¬ zeroSentinel exif0 = true then some (exif0, ["EXIF"])
  else if hasKeyA st.files jsonP then
    match env.jsonMeta jsonP with
    | some d => some (d, ["JSON"])
    | none => some (exif0, [])
  else if hasKeyA st.files thmP then
    let t := env.exif thmP "CreateDate"
    if ¬ t = "" then some (t, ["THM"]) else some (exif0, [])
  else
    match filenameDate with
    | some d => some (d, ["Filename"])
    | none =>
      if fallbackToMtime then some (env.mtimeStr src, ["MTIME"])
      else none

/-! ## `process_file` (lines 241 to 364) -/

/-- Duplicate and conflict handling once the target path is known (lines 318
to 362): size mismatch goes to `conflicts/`, equal fingerprints are a
duplicate (removed or skipped), distinct fingerprints get a `_copy_` name.
The `hashed` flag records whether `sha256sum_file` ran. -/
def phaseConflict (cfg : Config) (env : Env) (st : St) (src d : String)
    (rotated : Option String) : PFResult :=
  let base := nameOf src
  let destDir := destDirFor cfg d
  let monthLog := monthLogFor cfg d
  let tgt0 := plainTargetFor cfg env d base
  match lookupA st.files tgt0 with
  | some tinfo =>
    match lookupA st.files src with
    | none => ⟨st, .errored, false, rotated⟩
    | some sinfo =>
      if ¬ sinfo.size = tinfo.size then
        let st1 := { st with dirs := addDir st.dirs (destDir ++ "/conflicts") }
        finishMove cfg env st1 src (resolve_conflict base destDir) destDir monthLog
          Decision.conflictSized false rotated
      else if sinfo.hash = tinfo.hash then
        if cfg.removeDuplicates then
          ⟨{ st with files := delA st.files src }, .dupRemoved, true, rotated⟩
        else ⟨st, .dupSkipped, true, rotated⟩
      else
        finishMove cfg env st src (destDir ++ "/" ++ copyNameFor env base) destDir monthLog
          Decision.conflictCopy true rotated
  | none =>
    finishMove cfg env st src tgt0 destDir monthLog Decision.plainMove false rotated

/-- Lines 301 to 362: create the year/month directories, rotate the monthly
log on first touch, then resolve conflicts and move. -/
def phaseDest (cfg : Config) (env : Env) (st : St) (src d : String) : PFResult :=
  let year := (yearMonthOf d).1
  let destDir := destDirFor cfg d
  let st1 := { st with
    dirs := addDir (addDir (addDir st.dirs cfg.targetRoot) (cfg.targetRoot ++ "/" ++ year)) destDir }
  let rot := phaseRotate st1 (monthKeyFor d) (monthLogFor cfg d)
  phaseConflict cfg env rot.1 src d rot.2

/-- `process_file`: resolve a date along the chain, validate it against the
strict format, then place the file. -/
def process_file (cfg : Config) (env : Env) (st : St) (src : String) : PFResult :=
  match resolveChain cfg.fallbackToMtime env st src with
  | none => ⟨st, .skippedNoDate, false, none⟩
  | some dm =>
    if dm.1 = "" ∨ ¬ isFullDate dm.1 = true then ⟨st, .skippedInvalid, false, none⟩
    else phaseDest cfg env st src dm.1

/-- Sequential run over a list of items (the single-worker schedule of the
thread pool), collecting each decision and rotation event. -/
def runItems (cfg : Config) (env : Env) : List String → St → St × List (Decision × Option String)
  | [], st => (st, [])
  | f :: rest, st =>
    let r := process_file cfg env st f
    let rr := runItems cfg env rest r.st
    (rr.1, (r.decision, r.rotated) :: rr.2)

/-! ## Timestamp correction after a move (lines 110 to 140) -/

/-- The timestamp state of one file: the value of its embedded capture tag
(the tag matching the media kind, as exiftool reads and writes it) and the
filesystem modification and creation dates, all as formatted strings. -/
structure FileTimes where
  embedded : String
  fsModify : String
  fsCreate : String
deriving DecidableEq, Repr

/-- `update_timestamps` (lines 110 to 130).  For a known media extension the
exiftool command copies the embedded capture tag INTO the filesystem dates
(image: tag assignments FileModifyDate and FileCreateDate each from
DateTimeOriginal; video: each from CreateDate) and writes no embedded tag;
then, unconditionally, `os.utime` sets the access and modification times to
the resolved date string.  The embedded capture metadata is never
modified. -/
def update_timestamps (ext : String) (dateStr : String) (ft : FileTimes) : FileTimes :=
  let ft1 :=
    if imageExts.contains ext || videoExts.contains ext then
      { ft with fsModify := ft.embedded, fsCreate := ft.embedded }
    else ft
  { ft1 with fsModify := dateStr }

/-- `correct_timestamps` (lines 132 to 140): compare the formatted current
modification time with the resolved date and call `update_timestamps` only
when they differ. -/
def correct_timestamps (dateStr ext : String) (ft : FileTimes) : FileTimes :=
  if ¬ dateStr = ft.fsModify then update_timestamps ext dateStr ft else ft

/-! ## Small facts about the embedding, shared by the claim proofs -/

theorem lookupA_none_of_hasKeyA_false {α : Type} {l : List (String × α)} {k : String}
    (h : hasKeyA l k = false) : lookupA l k = none := by
  unfold hasKeyA at h
  cases hx : lookupA l k with
  | none => rfl
  | some v => rw [hx] at h; simp at h

@[simp]
theorem phaseRotate_files (st : St) (key logPath : String) :
    (phaseRotate st key logPath).1.files = st.files := by
  unfold phaseRotate
  split <;> rfl

@[simp]
theorem phaseRotate_backedUp_superset (st : St) (key logPath : String) :
    (phaseRotate st key logPath).1.dirs = st.dirs := by
  unfold phaseRotate
  split <;> rfl

theorem digit_ne_dash (c : Char) (h : c.isDigit = true) : ¬ c = '-' := by
  intro he
  rw [he] at h
  exact absurd h (by decide)

theorem splitDash_date (a b c e f g i j l m o p r t : Char)
    (ha : ¬ a = '-') (hb : ¬ b = '-') (hc : ¬ c = '-') (he : ¬ e = '-')
    (hf : ¬ f = '-') (hg : ¬ g = '-')
    (hi : ¬ i = '-') (hj : ¬ j = '-') (hl : ¬ l = '-') (hm : ¬ m = '-')
    (ho : ¬ o = '-') (hp : ¬ p = '-') (hr : ¬ r = '-') (ht : ¬ t = '-') :
    splitDash [a, b, c, e, '-', f, g, '-', i, j, ' ', l, m, ':', o, p, ':', r, t] =
      [[a, b, c, e], [f, g], [i, j, ' ', l, m, ':', o, p, ':', r, t]] := by
  have hsp : ¬ (' ' : Char) = '-' := by decide
  have hco : ¬ (':' : Char) = '-' := by decide
  simp [splitDash, ha, hb, hc, he, hf, hg, hi, hj, hl, hm, ho, hp, hr, ht, hsp, hco]

theorem yearMonth_of_isFullDate (d : String) (h : isFullDate d = true) :
    (yearMonthOf d).1.data = d.data.take 4 ∧ (yearMonthOf d).2.data = (d.data.drop 5).take 2 := by
  unfold isFullDate at h
  split at h
  next a b c dd e f g hh i j k l m n o p q r t heq =>
    simp only [Bool.and_eq_true, decide_eq_true_eq] at h
    obtain ⟨⟨⟨⟨⟨⟨⟨⟨⟨⟨⟨⟨⟨⟨⟨⟨⟨⟨ha, hb⟩, hc⟩, hdd⟩, he⟩, hf⟩, hg⟩, hhh⟩, hi⟩, hj⟩, hk⟩, hl⟩, hm⟩, hn⟩, ho⟩, hp⟩, hq⟩, hr⟩, ht⟩ := h
    subst he hhh hk hn hq
    unfold yearMonthOf
    rw [heq]
    rw [splitDash_date a b c dd f g i j l m o p r t
      (digit_ne_dash a ha) (digit_ne_dash b hb) (digit_ne_dash c hc) (digit_ne_dash dd hdd)
      (digit_ne_dash f hf) (digit_ne_dash g hg) (digit_ne_dash i hi) (digit_ne_dash j hj)
      (digit_ne_dash l hl) (digit_ne_dash m hm) (digit_ne_dash o ho) (digit_ne_dash p hp)
      (digit_ne_dash r hr) (digit_ne_dash t ht)]
    simp
  next heq => exact absurd h (by simp)

theorem append_json_ne_self (s : String) : ¬ s ++ ".json" = s := by
  intro h
  have h2 := congrArg String.length h
  rw [String.length_append] at h2
  have h3 : (".json" : String).length = 5 := rfl
  rw [h3] at h2
  omega


theorem moveFile_eq (files : List (String × FileInfo)) (src tgt : String) (sinfo : FileInfo)
    (h : lookupA files src = some sinfo) :
    moveFile files src tgt = setA (delA files src) tgt sinfo := by
  unfold moveFile
  rw [h]

theorem moveCompanion_absent (cfg : Config) (env : Env) (st : St)
    (p destDir monthLog : String) (h : hasKeyA st.files p = false) :
    moveCompanion cfg env st p destDir monthLog = (st, true) := by
  unfold moveCompanion
  rw [h]
  rfl

theorem finishMove_no_companions (cfg : Config) (env : Env) (st : St)
    (src tgt destDir monthLog : String) (mk : String → Decision) (hashed : Bool)
    (rotated : Option String) (sinfo : FileInfo)
    (hp : cfg.preview = false)
    (hsrc : lookupA st.files src = some sinfo)
    (hthm : hasKeyA st.files (thmPathOf src) = false)
    (hjson : hasKeyA st.files (src ++ ".json") = false)
    (hthm1 : ¬ thmPathOf src = tgt)
    (hjson1 : ¬ src ++ ".json" = tgt) :
    finishMove cfg env st src tgt destDir monthLog mk hashed rotated =
      ⟨{ st with files := setA (delA st.files src) tgt sinfo,
                 logs := log_move st.logs (globalLogPath cfg) monthLog (logEntry env src tgt) },
        mk tgt, hashed, rotated⟩ := by
  have hsrck : hasKeyA st.files src = true := by unfold hasKeyA; rw [hsrc]; rfl
  have hthm_ne_src : ¬ thmPathOf src = src := by
    intro he
    rw [he, hsrck] at hthm
    exact absurd hthm (by decide)
  have h1 : hasKeyA (setA (delA st.files src) tgt sinfo) (thmPathOf src) = false := by
    unfold hasKeyA
    rw [lookupA_setA_ne _ _ _ _ hthm1, lookupA_delA_ne _ _ _ hthm_ne_src,
      lookupA_none_of_hasKeyA_false hthm]
    rfl
  have h2 : hasKeyA (setA (delA st.files src) tgt sinfo) (src ++ ".json") = false := by
    unfold hasKeyA
    rw [lookupA_setA_ne _ _ _ _ hjson1,
      lookupA_delA_ne _ _ _ (append_json_ne_self src),
      lookupA_none_of_hasKeyA_false hjson]
    rfl
  unfold finishMove
  rw [hp, if_neg (by decide : ¬ ((false : Bool) = true))]
  dsimp only
  rw [hsrck, if_pos rfl]
  rw [moveFile_eq st.files src tgt sinfo hsrc]
  rw [moveCompanion_absent _ _ _ _ _ _ h1]
  dsimp only
  rw [if_pos rfl]
  rw [moveCompanion_absent _ _ _ _ _ _ h2]

theorem moveCompanion_moves (cfg : Config) (env : Env) (st : St)
    (p destDir monthLog : String) (pinfo : FileInfo)
    (hpres : lookupA st.files p = some pinfo)
    (hfree : hasKeyA st.files (destDir ++ "/" ++ nameOf p) = false) :
    moveCompanion cfg env st p destDir monthLog =
      ({ st with files := setA (delA st.files p) (destDir ++ "/" ++ nameOf p) pinfo,
                 logs := log_move st.logs (globalLogPath cfg) monthLog
                   (logEntry env p (destDir ++ "/" ++ nameOf p)) }, true) := by
  have hk : hasKeyA st.files p = true := by unfold hasKeyA; rw [hpres]; rfl
  unfold moveCompanion
  rw [hk, if_pos rfl]
  dsimp only
  rw [hfree, if_neg (by decide : ¬ ((false : Bool) = true))]
  rw [moveFile_eq st.files p _ pinfo hpres]

theorem finishMove_with_json (cfg : Config) (env : Env) (st : St)
    (src tgt destDir monthLog : String) (mk : String → Decision) (hashed : Bool)
    (rotated : Option String) (sinfo jinfo : FileInfo)
    (hp : cfg.preview = false)
    (hsrc : lookupA st.files src = some sinfo)
    (hthm : hasKeyA st.files (thmPathOf src) = false)
    (hjson : lookupA st.files (src ++ ".json") = some jinfo)
    (hthm1 : ¬ thmPathOf src = tgt)
    (hjson1 : ¬ src ++ ".json" = tgt)
    (hjd : hasKeyA st.files (destDir ++ "/" ++ nameOf (src ++ ".json")) = false)
    (hjd1 : ¬ destDir ++ "/" ++ nameOf (src ++ ".json") = tgt)
    (hjd2 : ¬ destDir ++ "/" ++ nameOf (src ++ ".json") = src) :
    finishMove cfg env st src tgt destDir monthLog mk hashed rotated =
      ⟨{ st with
          files := setA (delA (setA (delA st.files src) tgt sinfo) (src ++ ".json"))
            (destDir ++ "/" ++ nameOf (src ++ ".json")) jinfo,
          logs := log_move
            (log_move st.logs (globalLogPath cfg) monthLog (logEntry env src tgt))
            (globalLogPath cfg) monthLog
            (logEntry env (src ++ ".json") (destDir ++ "/" ++ nameOf (src ++ ".json"))) },
        mk tgt, hashed, rotated⟩ := by
  have hsrck : hasKeyA st.files src = true := by unfold hasKeyA; rw [hsrc]; rfl
  have hthm_ne_src : ¬ thmPathOf src = src := by
    intro he
    rw [he, hsrck] at hthm
    exact absurd hthm (by decide)
  have h1 : hasKeyA (setA (delA st.files src) tgt sinfo) (thmPathOf src) = false := by
    unfold hasKeyA
    rw [lookupA_setA_ne _ _ _ _ hthm1, lookupA_delA_ne _ _ _ hthm_ne_src,
      lookupA_none_of_hasKeyA_false hthm]
    rfl
  have hj1 : lookupA (setA (delA st.files src) tgt sinfo) (src ++ ".json") = some jinfo := by
    rw [lookupA_setA_ne _ _ _ _ hjson1,
      lookupA_delA_ne _ _ _ (append_json_ne_self src), hjson]
  have hfree1 : hasKeyA (setA (delA st.files src) tgt sinfo)
      (destDir ++ "/" ++ nameOf (src ++ ".json")) = false := by
    unfold hasKeyA
    rw [lookupA_setA_ne _ _ _ _ hjd1, lookupA_delA_ne _ _ _ hjd2,
      lookupA_none_of_hasKeyA_false hjd]
    rfl
  unfold finishMove
  rw [hp, if_neg (by decide : ¬ ((false : Bool) = true))]
  dsimp only
  rw [hsrck, if_pos rfl]
  rw [moveFile_eq st.files src tgt sinfo hsrc]
  rw [moveCompanion_absent _ _ _ _ _ _ h1]
  dsimp only
  rw [if_pos rfl]
  rw [moveCompanion_moves _ _ _ _ _ _ jinfo hj1 hfree1]

/-! ## Startup argument handling of `main` (lines 367 to 407)

`sys.argv` is modeled as the full argument list including the program name.
`int(...)` is modeled as Python parses integer literals: surrounding
whitespace stripped, an optional sign, then digits with single underscores
allowed between digits. -/

def isPyWs (c : Char) : Bool :=
  c = ' ' || c = '\t' || c = '\n' || c = '\r' || c.toNat = 11 || c.toNat = 12

def stripWs (l : List Char) : List Char :=
  ((l.dropWhile isPyWs).reverse.dropWhile isPyWs).reverse

def duAux : List Char → Bool
  | [] => true
  | '_' :: c :: rest => c.isDigit && duAux rest
  | c :: rest => c.isDigit && duAux rest

def pyDigits : List Char → Bool
  | [] => false
  | c :: rest => c.isDigit && duAux rest

def natOfDigitsU (l : List Char) : Nat :=
  l.foldl (fun a c => if c = '_' then a else a * 10 + charVal c) 0

def pyInt (s : String) : Option Int :=
  match stripWs s.data with
  | '+' :: rest => if pyDigits rest then some (natOfDigitsU rest : Int) else none
  | '-' :: rest => if pyDigits rest then some (-(natOfDigitsU rest : Int)) else none
  | l => if pyDigits l then some (natOfDigitsU l : Int) else none

def idxOf (l : List String) (x : String) : Nat := l.findIdx (fun y => y = x)

/-- `--password` handling: if the flag is present, a value must follow it. -/
def pwdOkA (argv : List String) : Bool :=
  if argv.contains "--password" then idxOf argv "--password" + 1 < argv.length else true

/-- `--threads` handling: if the flag is present, the next argument must
parse as an integer that is at least 1; a missing value, a parse failure or
a non-positive value raise `ValueError`. -/
def threadsOkA (argv : List String) : Bool :=
  if argv.contains "--threads" then
    match argv.get? (idxOf argv "--threads" + 1) with
    | none => false
    | some s =>
      match pyInt s with
      | none => false
      | some n => 1 ≤ n
  else true

/-- The exit code of `main` as a function of the argument vector and of
whether the source path is a directory.  A run that gets past the startup
checks completes with exit code 0: every per-item failure inside
`process_file` is caught at the item boundary. -/
def mainExit (argv : List String) (sourceIsDir : Bool) : Nat :=
  if argv.length < 3 then 1
  else if ¬ pwdOkA argv = true then 1
  else if ¬ threadsOkA argv = true then 1
  else if ¬ sourceIsDir = true then 2
  else 0

/-! ## Concrete run scenarios -/

/-- A run configuration writing to target root `t`, not in preview, without
mtime fallback, without duplicate removal. -/
def cfgC1x : Config := ⟨"t", false, false, false⟩

/-- Every media file carries the embedded tag `2021-05-03 10:00:00`. -/
def envC1x : Env := ⟨fun _ _ => "2021-05-03 10:00:00", fun _ => none, fun _ => "", "S", "I", id⟩

/-- Two source photos of the same month; no monthly log pre-exists. -/
def stC1x : St := ⟨[("s/a.jpg", ⟨1, 1, 1⟩), ("s/b.jpg", ⟨2, 2, 2⟩)], [], ["s"], []⟩

def runC1x : St × List (Decision × Option String) :=
  runItems cfgC1x envC1x ["s/a.jpg", "s/b.jpg"] stC1x

/-- **C1.**  In a run over two items of the same destination month with no
pre-existing monthly log, the first item performs no rotation (and appends
its log entry, creating the monthly log), and the second item of the same
run then performs the backup-and-clear rotation: the entry the run itself
appended at the first item is moved into the `.1` backup and cleared from
the monthly log.  This exhibits the divergence from the claim that after the
first item touches a month no later item of the same run rotates its log:
`backed_up_logs.add(month_key)` runs only when a log already existed, so a
month first touched without a pre-existing log is rotated at the second
touch. -/
theorem C1_rotation_after_first_touch :
    lookupA stC1x.logs "t/2021/05/media_organizer.log" = none ∧
    runC1x.2 = [(Decision.plainMove "t/2021/05/a.jpg", none),
                (Decision.plainMove "t/2021/05/b.jpg", some "2021-05")] ∧
    lookupA runC1x.1.logs "t/2021/05/media_organizer.log" =
      some ["I | s/b.jpg -> t/2021/05/b.jpg"] ∧
    lookupA runC1x.1.logs "t/2021/05/media_organizer.log.1" =
      some ["I | s/a.jpg -> t/2021/05/a.jpg"] := by
  decide

def cfgC10x : Config := ⟨"t", false, false, false⟩

def envC10x : Env := ⟨fun _ _ => "2021-05-03 10:00:00", fun _ => none, fun _ => "", "S", "I", id⟩

/-- A destination occupant of size 3 and two same-named sources of sizes 5
and 7: both are size-mismatch collisions against the plain destination. -/
def stC10x : St :=
  ⟨[("t/2021/05/a.jpg", ⟨3, 30, 30⟩), ("s/x/a.jpg", ⟨5, 50, 50⟩), ("s/y/a.jpg", ⟨7, 70, 70⟩)],
    [], ["s"], []⟩

def runC10x : St × List (Decision × Option String) :=
  runItems cfgC10x envC10x ["s/x/a.jpg", "s/y/a.jpg"] stC10x

/-- **C10.**  Two successive same-named items, each of a different size than
the plain-destination occupant, are both routed to the same
`conflicts/a.jpg` path without any occupancy check there: the second move
overwrites the first, whose content (identity 50) survives nowhere in the
final state. -/
theorem C10_conflicts_overwrite :
    (runC10x.2.map Prod.fst) =
      [Decision.conflictSized "t/2021/05/conflicts/a.jpg",
       Decision.conflictSized "t/2021/05/conflicts/a.jpg"] ∧
    lookupA runC10x.1.files "t/2021/05/conflicts/a.jpg" = some ⟨7, 70, 70⟩ ∧
    (runC10x.1.files.all fun kv => ¬ kv.2.content = 50) = true ∧
    lookupA stC10x.files "s/x/a.jpg" = some ⟨5, 50, 50⟩ := by
  decide

/-- Preview run with duplicate removal enabled. -/
def cfgC2p : Config := ⟨"t", true, false, true⟩

def cfgC2n : Config := ⟨"t", false, false, true⟩

def envC2x : Env := ⟨fun _ _ => "2021-05-03 10:00:00", fun _ => none, fun _ => "", "S", "I", id⟩

/-- The source is byte-identical (same size and fingerprint) to the
destination occupant, and the destination month already holds a log from an
earlier run. -/
def stC2x : St :=
  ⟨[("s/a.jpg", ⟨5, 7, 1⟩), ("t/2021/05/a.jpg", ⟨5, 7, 2⟩)],
    [("t/2021/05/media_organizer.log", ["old"])], ["s"], []⟩

/-- **C2 counterexample.**  A preview run reaches the same classification as
the non-preview run (duplicate), but it is not mutation-free: it deletes the
duplicate source file, it rotates the pre-existing monthly log into a `.1`
backup and clears it, and it creates the destination month directory. -/
theorem C2_preview_mutates_cx :
    (process_file cfgC2p envC2x stC2x "s/a.jpg").decision = Decision.dupRemoved ∧
    (process_file cfgC2n envC2x stC2x "s/a.jpg").decision = Decision.dupRemoved ∧
    lookupA stC2x.files "s/a.jpg" = some ⟨5, 7, 1⟩ ∧
    lookupA (process_file cfgC2p envC2x stC2x "s/a.jpg").st.files "s/a.jpg" = none ∧
    lookupA stC2x.logs "t/2021/05/media_organizer.log" = some ["old"] ∧
    lookupA (process_file cfgC2p envC2x stC2x "s/a.jpg").st.logs
      "t/2021/05/media_organizer.log" = none ∧
    lookupA (process_file cfgC2p envC2x stC2x "s/a.jpg").st.logs
      "t/2021/05/media_organizer.log.1" = some ["old"] ∧
    stC2x.dirs.contains "t/2021/05" = false ∧
    (process_file cfgC2p envC2x stC2x "s/a.jpg").st.dirs.contains "t/2021/05" = true := by
  decide

def cfgC5x : Config := ⟨"t", false, false, false⟩

/-- The embedded tag is a non-empty, non-sentinel, non-conforming string,
and a parseable sidecar with a good date is present. -/
def envC5x : Env :=
  ⟨fun p _ => if p = "s/b.jpg" then "garbage" else "",
    fun p => if p = "s/b.jpg.json" then some "2021-05-03 10:00:00" else none,
    fun _ => "", "S", "I", id⟩

def stC5x : St := ⟨[("s/b.jpg", ⟨1, 1, 1⟩), ("s/b.jpg.json", ⟨1, 2, 3⟩)], [], ["s"], []⟩

/-- **C5 counterexample.**  A non-empty embedded tag value that is not a
full date string and not the zero sentinel short-circuits the chain: the
claim says the resolver then consults the next sources (here a sidecar
holding a valid date, which would yield a move), but the code accepts the
tag at the chain stage and only then rejects it, skipping the item. -/
theorem C5_nonconforming_tag_cx :
    envC5x.exif "s/b.jpg" (mediaTag (extOf "s/b.jpg")) = "garbage" ∧
    ¬ "garbage" = "" ∧
    zeroSentinel "garbage" = false ∧
    isFullDate "garbage" = false ∧
    hasKeyA stC5x.files ("s/b.jpg" ++ ".json") = true ∧
    envC5x.jsonMeta ("s/b.jpg" ++ ".json") = some "2021-05-03 10:00:00" ∧
    isFullDate "2021-05-03 10:00:00" = true ∧
    (process_file cfgC5x envC5x stC5x "s/b.jpg").decision = Decision.skippedInvalid := by
  decide

def cfgC6x : Config := ⟨"t", true, false, false⟩

/-- The transliteration collaborator maps the Cyrillic name to a Latin
one. -/
def envC6x : Env :=
  ⟨fun _ _ => "2021-05-03 10:00:00", fun _ => none, fun _ => "", "S", "I", fun _ => "jo.jpg"⟩

def stC6x : St := ⟨[("s/ё.jpg", ⟨1, 1, 1⟩)], [], ["s"], []⟩

/-- **C6 counterexample.**  The source name consists of the Cyrillic letter
yo and an extension: it contains a Cyrillic character (U+0451), so the claim
requires the destination filename to be the transliterated Latin form.  The
regex range of the code stops at U+044F, so the name is left unchanged and
the destination filename still contains Cyrillic. -/
theorem C6_yo_not_transliterated_cx :
    containsCyrillic "ё.jpg" = true ∧
    containsRu "ё.jpg" = false ∧
    envC6x.translit "ё.jpg" = "jo.jpg" ∧
    ¬ ("ё.jpg" : String) = "jo.jpg" ∧
    (process_file cfgC6x envC6x stC6x "s/ё.jpg").decision =
      Decision.plainMove "t/2021/05/ё.jpg" ∧
    nameOf "t/2021/05/ё.jpg" = "ё.jpg" ∧
    containsCyrillic (nameOf "t/2021/05/ё.jpg") = true := by
  decide

def cfgC7x : Config := ⟨"t", false, false, false⟩

/-- A sidecar whose metadata parses to a good date sits at the path the
claim describes: the stem of the item plus `.json`. -/
def envC7x : Env :=
  ⟨fun _ _ => "", fun p => if p = "s/IMG_0001.json" then some "2021-05-03 10:00:00" else none,
    fun _ => "", "S", "I", id⟩

def stC7x : St := ⟨[("s/IMG_0001.jpg", ⟨1, 1, 1⟩), ("s/IMG_0001.json", ⟨1, 2, 3⟩)], [], ["s"], []⟩

/-- **C7 counterexample.**  For item `s/IMG_0001.jpg` the claim binds the
sidecar at the stem plus `.json`, which is `s/IMG_0001.json`.  A parseable
sidecar at exactly that path is ignored by the code, which looks only at the
full name plus `.json` (`s/IMG_0001.jpg.json`): the item is skipped with no
date instead of being moved with the sidecar date. -/
theorem C7_stem_json_ignored_cx :
    (⟨dirPartChars "s/IMG_0001.jpg".data ++ stemChars (nameChars "s/IMG_0001.jpg".data)⟩ : String)
      ++ ".json" = "s/IMG_0001.json" ∧
    hasKeyA stC7x.files "s/IMG_0001.json" = true ∧
    envC7x.jsonMeta "s/IMG_0001.json" = some "2021-05-03 10:00:00" ∧
    isFullDate "2021-05-03 10:00:00" = true ∧
    hasKeyA stC7x.files ("s/IMG_0001.jpg" ++ ".json") = false ∧
    (process_file cfgC7x envC7x stC7x "s/IMG_0001.jpg").decision = Decision.skippedNoDate ∧
    (process_file cfgC7x envC7x stC7x "s/IMG_0001.jpg").st = stC7x := by
  decide

/-! ## Branch characterizations of the date chain and of `process_file` -/

theorem resolveChain_exif_branch (fb : Bool) (env : Env) (st : St) (src : String)
    (hne : ¬ env.exif src (mediaTag (extOf src)) = "")
    (hz : zeroSentinel (env.exif src (mediaTag (extOf src))) = false) :
    resolveChain fb env st src = some (env.exif src (mediaTag (extOf src)), ["EXIF"]) := by
  unfold resolveChain
  dsimp only
  rw [if_pos ⟨hne, by simp [hz]⟩]

theorem resolveChain_json_some (fb : Bool) (env : Env) (st : St) (src d : String)
    (he : env.exif src (mediaTag (extOf src)) = "")
    (hj : hasKeyA st.files (src ++ ".json") = true)
    (hm : env.jsonMeta (src ++ ".json") = some d) :
    resolveChain fb env st src = some (d, ["JSON"]) := by
  unfold resolveChain
  dsimp only
  rw [he, if_neg (by simp), hj, if_pos rfl, hm]

theorem resolveChain_thm_some (fb : Bool) (env : Env) (st : St) (src t1 : String)
    (he : env.exif src (mediaTag (extOf src)) = "")
    (hj : hasKeyA st.files (src ++ ".json") = false)
    (ht : hasKeyA st.files (thmPathOf src) = true)
    (hv : env.exif (thmPathOf src) "CreateDate" = t1)
    (hne : ¬ t1 = "") :
    resolveChain fb env st src = some (t1, ["THM"]) := by
  unfold resolveChain
  dsimp only
  rw [he, if_neg (by simp), hj, if_neg (by simp), ht, if_pos rfl, hv, if_pos hne]

theorem process_file_invalid (cfg : Config) (env : Env) (st : St) (src d : String)
    (ms : List String)
    (hchain : resolveChain cfg.fallbackToMtime env st src = some (d, ms))
    (hinv : d = "" ∨ isFullDate d = false) :
    process_file cfg env st src = ⟨st, Decision.skippedInvalid, false, none⟩ := by
  unfold process_file
  rw [hchain]
  dsimp only
  rw [if_pos (by rcases hinv with h | h; exact Or.inl h; exact Or.inr (by simp [h]))]

theorem process_file_valid (cfg : Config) (env : Env) (st : St) (src d : String)
    (ms : List String)
    (hchain : resolveChain cfg.fallbackToMtime env st src = some (d, ms))
    (hne : ¬ d = "") (hfd : isFullDate d = true) :
    process_file cfg env st src = phaseDest cfg env st src d := by
  unfold process_file
  rw [hchain]
  dsimp only
  rw [if_neg (fun h => h.elim hne (fun hh => hh hfd))]

/-- The destination-directory bookkeeping state built by `phaseDest`. -/
def mkDestDirs (cfg : Config) (st : St) (d : String) : St :=
  { st with
      dirs := addDir (addDir (addDir st.dirs cfg.targetRoot)
        (cfg.targetRoot ++ "/" ++ (yearMonthOf d).1)) (destDirFor cfg d) }

theorem phaseDest_eq (cfg : Config) (env : Env) (st : St) (src d : String) :
    phaseDest cfg env st src d =
      phaseConflict cfg env
        (phaseRotate (mkDestDirs cfg st d) (monthKeyFor d) (monthLogFor cfg d)).1 src d
        (phaseRotate (mkDestDirs cfg st d) (monthKeyFor d) (monthLogFor cfg d)).2 := rfl

theorem phaseConflict_unoccupied (cfg : Config) (env : Env) (st : St) (src d : String)
    (rot : Option String)
    (hocc : lookupA st.files (plainTargetFor cfg env d (nameOf src)) = none) :
    phaseConflict cfg env st src d rot =
      finishMove cfg env st src (plainTargetFor cfg env d (nameOf src))
        (destDirFor cfg d) (monthLogFor cfg d) Decision.plainMove false rot := by
  unfold phaseConflict
  dsimp only
  rw [hocc]

theorem phaseConflict_sized (cfg : Config) (env : Env) (st : St) (src d : String)
    (rot : Option String) (sinfo tinfo : FileInfo)
    (hocc : lookupA st.files (plainTargetFor cfg env d (nameOf src)) = some tinfo)
    (hsrc : lookupA st.files src = some sinfo)
    (hsz : ¬ sinfo.size = tinfo.size) :
    phaseConflict cfg env st src d rot =
      finishMove cfg env { st with dirs := addDir st.dirs (destDirFor cfg d ++ "/conflicts") }
        src (resolve_conflict (nameOf src) (destDirFor cfg d))
        (destDirFor cfg d) (monthLogFor cfg d) Decision.conflictSized false rot := by
  unfold phaseConflict
  dsimp only
  rw [hocc]
  dsimp only
  rw [hsrc]
  dsimp only
  rw [if_pos hsz]

theorem phaseConflict_dup (cfg : Config) (env : Env) (st : St) (src d : String)
    (rot : Option String) (sinfo tinfo : FileInfo)
    (hocc : lookupA st.files (plainTargetFor cfg env d (nameOf src)) = some tinfo)
    (hsrc : lookupA st.files src = some sinfo)
    (hsz : sinfo.size = tinfo.size) (hh : sinfo.hash = tinfo.hash) :
    phaseConflict cfg env st src d rot =
      if cfg.removeDuplicates then
        ⟨{ st with files := delA st.files src }, Decision.dupRemoved, true, rot⟩
      else ⟨st, Decision.dupSkipped, true, rot⟩ := by
  unfold phaseConflict
  dsimp only
  rw [hocc]
  dsimp only
  rw [hsrc]
  dsimp only
  rw [if_neg (not_not_intro hsz), if_pos hh]

theorem phaseConflict_copy (cfg : Config) (env : Env) (st : St) (src d : String)
    (rot : Option String) (sinfo tinfo : FileInfo)
    (hocc : lookupA st.files (plainTargetFor cfg env d (nameOf src)) = some tinfo)
    (hsrc : lookupA st.files src = some sinfo)
    (hsz : sinfo.size = tinfo.size) (hh : ¬ sinfo.hash = tinfo.hash) :
    phaseConflict cfg env st src d rot =
      finishMove cfg env st src (destDirFor cfg d ++ "/" ++ copyNameFor env (nameOf src))
        (destDirFor cfg d) (monthLogFor cfg d) Decision.conflictCopy true rot := by
  unfold phaseConflict
  dsimp only
  rw [hocc]
  dsimp only
  rw [hsrc]
  dsimp only
  rw [if_neg (not_not_intro hsz), if_neg hh]

/-! ## Claim theorems: the date chain (C3, C5) -/

/-- **C5 (amended).**  The embedded tag short-circuits the chain whenever it
is non-empty and not the zero sentinel, becoming the candidate date
verbatim; when such a value is not a full `YYYY-MM-DD HH:MM:SS` string the
item is then rejected at the final validation and skipped, the later
sources never consulted.  So the tag is accepted as the resolved date only
when it is syntactically a full date string. -/
theorem C5_amended_tag_shortcircuit :
    (∀ (fb : Bool) (env : Env) (st : St) (src : String),
      ¬ env.exif src (mediaTag (extOf src)) = "" →
      zeroSentinel (env.exif src (mediaTag (extOf src))) = false →
      resolveChain fb env st src = some (env.exif src (mediaTag (extOf src)), ["EXIF"])) ∧
    (∀ (cfg : Config) (env : Env) (st : St) (src : String),
      ¬ env.exif src (mediaTag (extOf src)) = "" →
      zeroSentinel (env.exif src (mediaTag (extOf src))) = false →
      isFullDate (env.exif src (mediaTag (extOf src))) = false →
      (process_file cfg env st src).decision = Decision.skippedInvalid ∧
      (process_file cfg env st src).st = st) := by
  constructor
  · intro fb env st src hne hz
    exact resolveChain_exif_branch fb env st src hne hz
  · intro cfg env st src hne hz hbad
    rw [process_file_invalid cfg env st src (env.exif src (mediaTag (extOf src))) ["EXIF"]
      (resolveChain_exif_branch cfg.fallbackToMtime env st src hne hz) (Or.inr hbad)]
    exact ⟨rfl, rfl⟩

/-- Witness for C5: the concrete non-conforming tag is taken by the chain
and then rejected. -/
theorem C5_amended_witness :
    resolveChain false envC5x stC5x "s/b.jpg" = some ("garbage", ["EXIF"]) ∧
    (process_file cfgC5x envC5x stC5x "s/b.jpg").decision = Decision.skippedInvalid :=
  ⟨C5_amended_tag_shortcircuit.1 false envC5x stC5x "s/b.jpg" (by decide) (by decide),
   (C5_amended_tag_shortcircuit.2 cfgC5x envC5x stC5x "s/b.jpg"
     (by decide) (by decide) (by decide)).1⟩

/-! ## Claim theorems: timestamp re-stamping (C8) -/

/-- A moved photo whose embedded tag and filesystem dates all differ from
the resolved date `2021-05-03 10:00:00`. -/
def ftC8x : FileTimes :=
  ⟨"2015-01-01 00:00:00", "2020-06-06 06:06:06", "2020-06-06 06:06:06"⟩

/-- **C8 counterexample.**  The claim says that when the current
modification time differs from the resolved date, the embedded capture
metadata and the filesystem modification and creation timestamps are
re-stamped to the resolved date.  At this input the modification time does
differ and `update_timestamps` runs, yet the embedded tag keeps its old
value (it is never written), and the creation date receives the embedded
tag value rather than the resolved date: only the modification time ends up
equal to the resolved date. -/
theorem C8_embedded_not_restamped_cx :
    ¬ "2021-05-03 10:00:00" = ftC8x.fsModify ∧
    (correct_timestamps "2021-05-03 10:00:00" "jpg" ftC8x).embedded =
      "2015-01-01 00:00:00" ∧
    ¬ (correct_timestamps "2021-05-03 10:00:00" "jpg" ftC8x).embedded =
      "2021-05-03 10:00:00" ∧
    (correct_timestamps "2021-05-03 10:00:00" "jpg" ftC8x).fsModify =
      "2021-05-03 10:00:00" ∧
    (correct_timestamps "2021-05-03 10:00:00" "jpg" ftC8x).fsCreate =
      "2015-01-01 00:00:00" ∧
    ¬ (correct_timestamps "2021-05-03 10:00:00" "jpg" ftC8x).fsCreate =
      "2021-05-03 10:00:00" := by
  decide

/-- **C8 (amended).**  For a media-extension file, `correct_timestamps`
acts exactly when the formatted current modification time differs from the
resolved date (when they agree nothing runs and exiftool is not invoked);
when it acts, the exiftool step copies the embedded capture tag into the
filesystem modification and creation dates and `os.utime` then sets the
modification time to the resolved date — so afterwards the modification
time equals the resolved date, the creation date equals the embedded tag
value, and the embedded capture metadata is unchanged (it is never
re-stamped). -/
theorem C8_amended_fs_only_restamp (dateStr ext : String) (ft : FileTimes)
    (hmedia : imageExts.contains ext = true ∨ videoExts.contains ext = true) :
    (dateStr = ft.fsModify → correct_timestamps dateStr ext ft = ft) ∧
    (¬ dateStr = ft.fsModify →
      correct_timestamps dateStr ext ft =
        { embedded := ft.embedded, fsModify := dateStr, fsCreate := ft.embedded }) ∧
    (correct_timestamps dateStr ext ft).embedded = ft.embedded := by
  have hm : (imageExts.contains ext || videoExts.contains ext) = true := by
    rcases hmedia with h | h
    · rw [h]; rfl
    · rw [h]; exact Bool.or_true _
  refine ⟨?_, ?_, ?_⟩
  · intro h
    unfold correct_timestamps
    rw [if_neg (not_not_intro h)]
  · intro h
    unfold correct_timestamps update_timestamps
    rw [if_pos h]
    dsimp only
    rw [hm, if_pos rfl]
  · by_cases h : dateStr = ft.fsModify
    · unfold correct_timestamps
      rw [if_neg (not_not_intro h)]
    · unfold correct_timestamps update_timestamps
      rw [if_pos h]
      dsimp only
      rw [hm, if_pos rfl]

/-- Witness for C8 at a concrete differing pair (filesystem dates updated,
embedded tag untouched) and a concrete agreeing pair (no action). -/
theorem C8_amended_witness :
    correct_timestamps "2021-05-03 10:00:00" "jpg"
        ⟨"2015-01-01 00:00:00", "2020-06-06 06:06:06", "2020-06-06 06:06:06"⟩ =
      ⟨"2015-01-01 00:00:00", "2021-05-03 10:00:00", "2015-01-01 00:00:00"⟩ ∧
    correct_timestamps "2021-05-03 10:00:00" "mp4"
        ⟨"2015-01-01 00:00:00", "2021-05-03 10:00:00", "2020-06-06 06:06:06"⟩ =
      ⟨"2015-01-01 00:00:00", "2021-05-03 10:00:00", "2020-06-06 06:06:06"⟩ :=
  ⟨(C8_amended_fs_only_restamp "2021-05-03 10:00:00" "jpg"
      ⟨"2015-01-01 00:00:00", "2020-06-06 06:06:06", "2020-06-06 06:06:06"⟩
      (Or.inl (by decide))).2.1 (by decide),
   (C8_amended_fs_only_restamp "2021-05-03 10:00:00" "mp4"
      ⟨"2015-01-01 00:00:00", "2021-05-03 10:00:00", "2020-06-06 06:06:06"⟩
      (Or.inr (by decide))).1 rfl⟩

/-- **C9.**  Startup behavior of `main`: fewer than two positional
arguments exit with code 1; with the flags well-formed, a missing or
non-directory source exits with code 2; a present `--threads` whose value is
missing, unparseable or non-positive exits with code 1, which is distinct
from the source-missing code 2; and a run that passes the startup checks
completes with exit code 0 (per-item skips and errors are contained inside
`process_file`). -/
theorem C9_exit_codes :
    (∀ (argv : List String) (d : Bool), argv.length < 3 → mainExit argv d = 1) ∧
    (∀ (argv : List String) (d : Bool), 3 ≤ argv.length → pwdOkA argv = true →
      threadsOkA argv = true → d = false → mainExit argv d = 2) ∧
    (∀ (argv : List String) (d : Bool) (v : String), 3 ≤ argv.length →
      pwdOkA argv = true →
      argv.contains "--threads" = true →
      argv.get? (idxOf argv "--threads" + 1) = some v →
      (pyInt v = none ∨ ∃ n : Int, pyInt v = some n ∧ n < 1) →
      mainExit argv d = 1 ∧ ¬ (1 : Nat) = 2) ∧
    (∀ argv : List String, 3 ≤ argv.length → pwdOkA argv = true →
      threadsOkA argv = true → mainExit argv true = 0) := by
  refine ⟨?_, ?_, ?_, ?_⟩
  · intro argv d h
    unfold mainExit
    rw [if_pos h]
  · intro argv d h hp ht hd
    subst hd
    unfold mainExit
    rw [if_neg (by omega), if_neg (not_not_intro hp), if_neg (not_not_intro ht),
      if_pos (by decide)]
  · intro argv d v h hp hc hg hv
    have hto : threadsOkA argv = false := by
      unfold threadsOkA
      rw [hc, if_pos rfl, hg]
      dsimp only
      rcases hv with hn | ⟨n, hs, hlt⟩
      · rw [hn]
      · rw [hs]
        exact decide_eq_false (by omega)
    refine ⟨?_, by omega⟩
    unfold mainExit
    rw [if_neg (by omega), if_neg (not_not_intro hp), if_pos (by simp [hto])]
  · intro argv h hp ht
    unfold mainExit
    rw [if_neg (by omega), if_neg (not_not_intro hp), if_neg (not_not_intro ht),
      if_neg (not_not_intro rfl)]

/-- Witness for C9: each exit-code case at a concrete argument vector. -/
theorem C9_witness :
    mainExit ["prog"] true = 1 ∧
    mainExit ["prog", "s", "t"] false = 2 ∧
    (mainExit ["prog", "s", "t", "--threads", "0"] true = 1 ∧ ¬ (1 : Nat) = 2) ∧
    mainExit ["prog", "s", "t"] true = 0 :=
  ⟨C9_exit_codes.1 ["prog"] true (by decide),
   C9_exit_codes.2.1 ["prog", "s", "t"] false (by decide) (by decide) (by decide) rfl,
   C9_exit_codes.2.2.1 ["prog", "s", "t", "--threads", "0"] true "0" (by decide) (by decide)
     (by decide) (by decide) (Or.inr ⟨0, by decide, by decide⟩),
   C9_exit_codes.2.2.2 ["prog", "s", "t"] (by decide) (by decide) (by decide)⟩

/-- Decision, hashing flag and primary placement produced by `finishMove`
when neither companion exists. -/
theorem finishMove_facts (cfg : Config) (env : Env) (st : St)
    (src tgt destDir monthLog : String) (mk : String → Decision) (hashed : Bool)
    (rotated : Option String) (sinfo : FileInfo)
    (hp : cfg.preview = false)
    (hsrc : lookupA st.files src = some sinfo)
    (hthm : hasKeyA st.files (thmPathOf src) = false)
    (hjson : hasKeyA st.files (src ++ ".json") = false)
    (hthm1 : ¬ thmPathOf src = tgt)
    (hjson1 : ¬ src ++ ".json" = tgt) :
    (finishMove cfg env st src tgt destDir monthLog mk hashed rotated).decision = mk tgt ∧
    (finishMove cfg env st src tgt destDir monthLog mk hashed rotated).hashed = hashed ∧
    lookupA (finishMove cfg env st src tgt destDir monthLog mk hashed rotated).st.files tgt =
      some sinfo := by
  rw [finishMove_no_companions cfg env st src tgt destDir monthLog mk hashed rotated sinfo
    hp hsrc hthm hjson hthm1 hjson1]
  exact ⟨rfl, rfl, lookupA_setA_self _ _ _⟩

/-- **C4.**  Conflict precedence at an occupied destination: a size mismatch
relocates into the conflicts subdirectory of the destination month under the
original filename without computing any fingerprint; equal sizes with equal
fingerprints are a duplicate whose source is deleted exactly when duplicate
removal is enabled, the destination object untouched and nothing relocated;
equal sizes with distinct fingerprints relocate into the same destination
directory under the synthesized copy name. -/
theorem C4_conflict_precedence (cfg : Config) (env : Env) (st : St) (src d : String)
    (ms : List String) (sinfo tinfo : FileInfo)
    (hp : cfg.preview = false)
    (hchain : resolveChain cfg.fallbackToMtime env st src = some (d, ms))
    (hd0 : ¬ d = "") (hfd : isFullDate d = true)
    (hocc : lookupA st.files (plainTargetFor cfg env d (nameOf src)) = some tinfo)
    (hsrc : lookupA st.files src = some sinfo)
    (hsne : ¬ plainTargetFor cfg env d (nameOf src) = src)
    (hthm : hasKeyA st.files (thmPathOf src) = false)
    (hjson : hasKeyA st.files (src ++ ".json") = false)
    (hthm1 : ¬ thmPathOf src = resolve_conflict (nameOf src) (destDirFor cfg d))
    (hjson1 : ¬ src ++ ".json" = resolve_conflict (nameOf src) (destDirFor cfg d))
    (hthm2 : ¬ thmPathOf src = destDirFor cfg d ++ "/" ++ copyNameFor env (nameOf src))
    (hjson2 : ¬ src ++ ".json" = destDirFor cfg d ++ "/" ++ copyNameFor env (nameOf src)) :
    (¬ sinfo.size = tinfo.size →
      (process_file cfg env st src).decision =
        Decision.conflictSized (resolve_conflict (nameOf src) (destDirFor cfg d)) ∧
      (process_file cfg env st src).hashed = false ∧
      lookupA (process_file cfg env st src).st.files
        (resolve_conflict (nameOf src) (destDirFor cfg d)) = some sinfo) ∧
    (sinfo.size = tinfo.size → sinfo.hash = tinfo.hash →
      (process_file cfg env st src).hashed = true ∧
      lookupA (process_file cfg env st src).st.files
        (plainTargetFor cfg env d (nameOf src)) = some tinfo ∧
      (cfg.removeDuplicates = true →
        (process_file cfg env st src).decision = Decision.dupRemoved ∧
        (process_file cfg env st src).st.files = delA st.files src) ∧
      (cfg.removeDuplicates = false →
        (process_file cfg env st src).decision = Decision.dupSkipped ∧
        (process_file cfg env st src).st.files = st.files)) ∧
    (sinfo.size = tinfo.size → ¬ sinfo.hash = tinfo.hash →
      (process_file cfg env st src).decision =
        Decision.conflictCopy (destDirFor cfg d ++ "/" ++ copyNameFor env (nameOf src)) ∧
      (process_file cfg env st src).hashed = true ∧
      lookupA (process_file cfg env st src).st.files
        (destDirFor cfg d ++ "/" ++ copyNameFor env (nameOf src)) = some sinfo) := by
  rw [process_file_valid cfg env st src d ms hchain hd0 hfd, phaseDest_eq]
  have hfiles :
      (phaseRotate (mkDestDirs cfg st d) (monthKeyFor d) (monthLogFor cfg d)).1.files =
        st.files := by
    rw [phaseRotate_files]
    exact rfl
  have hocc2 : lookupA
      (phaseRotate (mkDestDirs cfg st d) (monthKeyFor d) (monthLogFor cfg d)).1.files
      (plainTargetFor cfg env d (nameOf src)) = some tinfo := by
    rw [hfiles]; exact hocc
  have hsrc2 : lookupA
      (phaseRotate (mkDestDirs cfg st d) (monthKeyFor d) (monthLogFor cfg d)).1.files
      src = some sinfo := by
    rw [hfiles]; exact hsrc
  have hthm3 : hasKeyA
      (phaseRotate (mkDestDirs cfg st d) (monthKeyFor d) (monthLogFor cfg d)).1.files
      (thmPathOf src) = false := by
    unfold hasKeyA
    rw [hfiles]
    exact hthm
  have hjson3 : hasKeyA
      (phaseRotate (mkDestDirs cfg st d) (monthKeyFor d) (monthLogFor cfg d)).1.files
      (src ++ ".json") = false := by
    unfold hasKeyA
    rw [hfiles]
    exact hjson
  refine ⟨?_, ?_, ?_⟩
  · intro hsz
    rw [phaseConflict_sized cfg env _ src d _ sinfo tinfo hocc2 hsrc2 hsz]
    have hres := finishMove_facts cfg env
      { (phaseRotate (mkDestDirs cfg st d) (monthKeyFor d) (monthLogFor cfg d)).1 with
          dirs := addDir
            (phaseRotate (mkDestDirs cfg st d) (monthKeyFor d) (monthLogFor cfg d)).1.dirs
            (destDirFor cfg d ++ "/conflicts") }
      src (resolve_conflict (nameOf src) (destDirFor cfg d)) (destDirFor cfg d)
      (monthLogFor cfg d) Decision.conflictSized false
      (phaseRotate (mkDestDirs cfg st d) (monthKeyFor d) (monthLogFor cfg d)).2 sinfo
      hp hsrc2 hthm3 hjson3 hthm1 hjson1
    exact hres
  · intro hsz hh
    rw [phaseConflict_dup cfg env _ src d _ sinfo tinfo hocc2 hsrc2 hsz hh]
    by_cases hr : cfg.removeDuplicates = true
    · rw [if_pos hr]
      refine ⟨rfl, ?_, ?_, ?_⟩
      · show lookupA (delA _ src) _ = some tinfo
        rw [hfiles, lookupA_delA_ne _ _ _ hsne]
        exact hocc
      · intro _
        exact ⟨rfl, by show delA _ src = _; rw [hfiles]⟩
      · intro hrf
        rw [hrf] at hr
        exact absurd hr (by decide)
    · rw [if_neg hr]
      have hrf : cfg.removeDuplicates = false := by
        cases hb : cfg.removeDuplicates
        · rfl
        · exact absurd hb hr
      refine ⟨rfl, ?_, ?_, ?_⟩
      · show lookupA _ _ = some tinfo
        rw [hfiles]
        exact hocc
      · intro hrt
        rw [hrt] at hrf
        exact absurd hrf (by decide)
      · intro _
        exact ⟨rfl, by show _ = st.files; rw [hfiles]⟩
  · intro hsz hh
    rw [phaseConflict_copy cfg env _ src d _ sinfo tinfo hocc2 hsrc2 hsz hh]
    exact finishMove_facts cfg env
      (phaseRotate (mkDestDirs cfg st d) (monthKeyFor d) (monthLogFor cfg d)).1
      src (destDirFor cfg d ++ "/" ++ copyNameFor env (nameOf src)) (destDirFor cfg d)
      (monthLogFor cfg d) Decision.conflictCopy true
      (phaseRotate (mkDestDirs cfg st d) (monthKeyFor d) (monthLogFor cfg d)).2 sinfo
      hp hsrc2 hthm3 hjson3 hthm2 hjson2

def cfgC4x : Config := ⟨"t", false, false, false⟩

def envC4x : Env :=
  ⟨fun _ _ => "2021-05-03 10:00:00", fun _ => none, fun _ => "", "20240101_000000", "I", id⟩

def stC4x : St := ⟨[("s/a.jpg", ⟨5, 50, 50⟩), ("t/2021/05/a.jpg", ⟨3, 30, 30⟩)], [], ["s"], []⟩

/-- Witness for C4 at a concrete size-mismatch collision. -/
theorem C4_witness :
    (process_file cfgC4x envC4x stC4x "s/a.jpg").decision =
      Decision.conflictSized "t/2021/05/conflicts/a.jpg" ∧
    (process_file cfgC4x envC4x stC4x "s/a.jpg").hashed = false ∧
    lookupA (process_file cfgC4x envC4x stC4x "s/a.jpg").st.files
      "t/2021/05/conflicts/a.jpg" = some ⟨5, 50, 50⟩ :=
  (C4_conflict_precedence cfgC4x envC4x stC4x "s/a.jpg" "2021-05-03 10:00:00" ["EXIF"]
    ⟨5, 50, 50⟩ ⟨3, 30, 30⟩ rfl (by decide) (by decide) (by decide) (by decide) (by decide)
    (by decide) (by decide) (by decide) (by decide) (by decide) (by decide) (by decide)).1
    (by decide)

/-- **C6 (amended).**  For an accepted date the destination directory is
exactly `targetRoot/year/month` with the year the first four characters and
the month the sixth and seventh characters of the resolved date string, and
the destination filename is the transliterated form exactly when the source
name contains a character in the range U+0410 to U+044F (the regex class of
the code, which excludes Cyrillic letters such as yo), otherwise the source
name unchanged. -/
theorem C6_amended_destination (cfg : Config) (env : Env) (st : St) (src d : String)
    (ms : List String) (sinfo : FileInfo)
    (hp : cfg.preview = false)
    (hchain : resolveChain cfg.fallbackToMtime env st src = some (d, ms))
    (hd0 : ¬ d = "") (hfd : isFullDate d = true)
    (hocc : lookupA st.files (plainTargetFor cfg env d (nameOf src)) = none)
    (hsrc : lookupA st.files src = some sinfo)
    (hthm : hasKeyA st.files (thmPathOf src) = false)
    (hjson : hasKeyA st.files (src ++ ".json") = false)
    (hthm1 : ¬ thmPathOf src = plainTargetFor cfg env d (nameOf src))
    (hjson1 : ¬ src ++ ".json" = plainTargetFor cfg env d (nameOf src)) :
    (process_file cfg env st src).decision =
      Decision.plainMove (destDirFor cfg d ++ "/" ++ tgtNameFor env (nameOf src)) ∧
    lookupA (process_file cfg env st src).st.files
      (plainTargetFor cfg env d (nameOf src)) = some sinfo ∧
    destDirFor cfg d =
      cfg.targetRoot ++ "/" ++ (yearMonthOf d).1 ++ "/" ++ (yearMonthOf d).2 ∧
    (yearMonthOf d).1.data = d.data.take 4 ∧
    (yearMonthOf d).2.data = (d.data.drop 5).take 2 ∧
    (containsRu (nameOf src) = true →
      tgtNameFor env (nameOf src) = env.translit (nameOf src)) ∧
    (containsRu (nameOf src) = false → tgtNameFor env (nameOf src) = nameOf src) := by
  rw [process_file_valid cfg env st src d ms hchain hd0 hfd, phaseDest_eq]
  have hfiles :
      (phaseRotate (mkDestDirs cfg st d) (monthKeyFor d) (monthLogFor cfg d)).1.files =
        st.files := by
    rw [phaseRotate_files]
    exact rfl
  have hocc2 : lookupA
      (phaseRotate (mkDestDirs cfg st d) (monthKeyFor d) (monthLogFor cfg d)).1.files
      (plainTargetFor cfg env d (nameOf src)) = none := by
    rw [hfiles]; exact hocc
  have hsrc2 : lookupA
      (phaseRotate (mkDestDirs cfg st d) (monthKeyFor d) (monthLogFor cfg d)).1.files
      src = some sinfo := by
    rw [hfiles]; exact hsrc
  have hthm3 : hasKeyA
      (phaseRotate (mkDestDirs cfg st d) (monthKeyFor d) (monthLogFor cfg d)).1.files
      (thmPathOf src) = false := by
    unfold hasKeyA
    rw [hfiles]
    exact hthm
  have hjson3 : hasKeyA
      (phaseRotate (mkDestDirs cfg st d) (monthKeyFor d) (monthLogFor cfg d)).1.files
      (src ++ ".json") = false := by
    unfold hasKeyA
    rw [hfiles]
    exact hjson
  rw [phaseConflict_unoccupied cfg env _ src d _ hocc2]
  have hres := finishMove_facts cfg env
    (phaseRotate (mkDestDirs cfg st d) (monthKeyFor d) (monthLogFor cfg d)).1
    src (plainTargetFor cfg env d (nameOf src)) (destDirFor cfg d) (monthLogFor cfg d)
    Decision.plainMove false
    (phaseRotate (mkDestDirs cfg st d) (monthKeyFor d) (monthLogFor cfg d)).2 sinfo
    hp hsrc2 hthm3 hjson3 hthm1 hjson1
  obtain ⟨hy, hm⟩ := yearMonth_of_isFullDate d hfd
  refine ⟨hres.1, hres.2.2, rfl, hy, hm, ?_, ?_⟩
  · intro h
    unfold tgtNameFor
    rw [h, if_pos rfl]
  · intro h
    unfold tgtNameFor
    rw [h, if_neg (by decide)]

def cfgC6w : Config := ⟨"t", false, false, false⟩

/-- The transliteration collaborator for the witness scenario. -/
def envC6w : Env :=
  ⟨fun _ _ => "2021-05-03 10:00:00", fun _ => none, fun _ => "", "S", "I",
    fun _ => "Foto.jpg"⟩

def stC6w : St := ⟨[("s/Фото.jpg", ⟨1, 1, 1⟩)], [], ["s"], []⟩

/-- Witness for C6: a Cyrillic name inside the regex range is transliterated
and lands in the year/month directory of its date. -/
theorem C6_witness :
    (process_file cfgC6w envC6w stC6w "s/Фото.jpg").decision =
      Decision.plainMove "t/2021/05/Foto.jpg" ∧
    lookupA (process_file cfgC6w envC6w stC6w "s/Фото.jpg").st.files
      "t/2021/05/Foto.jpg" = some ⟨1, 1, 1⟩ ∧
    (yearMonthOf "2021-05-03 10:00:00").1.data = "2021".data ∧
    (yearMonthOf "2021-05-03 10:00:00").2.data = "05".data :=
  have h := C6_amended_destination cfgC6w envC6w stC6w "s/Фото.jpg"
    "2021-05-03 10:00:00" ["EXIF"] ⟨1, 1, 1⟩ rfl (by decide) (by decide) (by decide)
    (by decide) (by decide) (by decide) (by decide) (by decide) (by decide)
  ⟨h.1, h.2.1, h.2.2.2.1, h.2.2.2.2.1⟩

/-- Decision and placements produced by `finishMove` when the JSON sidecar
companion exists and its destination is free. -/
theorem finishMove_json_facts (cfg : Config) (env : Env) (st : St)
    (src tgt destDir monthLog : String) (mk : String → Decision) (hashed : Bool)
    (rotated : Option String) (sinfo jinfo : FileInfo)
    (hp : cfg.preview = false)
    (hsrc : lookupA st.files src = some sinfo)
    (hthm : hasKeyA st.files (thmPathOf src) = false)
    (hjson : lookupA st.files (src ++ ".json") = some jinfo)
    (hthm1 : ¬ thmPathOf src = tgt)
    (hjson1 : ¬ src ++ ".json" = tgt)
    (hjd : hasKeyA st.files (destDir ++ "/" ++ nameOf (src ++ ".json")) = false)
    (hjd1 : ¬ destDir ++ "/" ++ nameOf (src ++ ".json") = tgt)
    (hjd2 : ¬ destDir ++ "/" ++ nameOf (src ++ ".json") = src) :
    (finishMove cfg env st src tgt destDir monthLog mk hashed rotated).decision = mk tgt ∧
    lookupA (finishMove cfg env st src tgt destDir monthLog mk hashed rotated).st.files tgt =
      some sinfo ∧
    lookupA (finishMove cfg env st src tgt destDir monthLog mk hashed rotated).st.files
      (destDir ++ "/" ++ nameOf (src ++ ".json")) = some jinfo := by
  rw [finishMove_with_json cfg env st src tgt destDir monthLog mk hashed rotated sinfo jinfo
    hp hsrc hthm hjson hthm1 hjson1 hjd hjd1 hjd2]
  refine ⟨rfl, ?_, lookupA_setA_self _ _ _⟩
  show lookupA _ tgt = some sinfo
  rw [lookupA_setA_ne _ _ _ _ (fun hh => hjd1 hh.symm),
    lookupA_delA_ne _ _ _ (fun hh => hjson1 hh.symm)]
  exact lookupA_setA_self _ _ _

/-- **C7 (amended).**  The companion set is bound by full-name-plus-suffix
for the sidecar and by stem for the thumbnail: the sidecar JSON is consulted
exactly at the item path plus `.json` (for the scenario item
`IMG_0001.jpg` that is `IMG_0001.jpg.json`), the thumbnail at the stem plus
`.THM`; a date found there resolves the item, and the sidecar at that path
is moved along with the item into the destination directory. -/
theorem C7_amended_companions :
    (∀ (fb : Bool) (env : Env) (st : St) (src d : String),
      env.exif src (mediaTag (extOf src)) = "" →
      hasKeyA st.files (src ++ ".json") = true →
      env.jsonMeta (src ++ ".json") = some d →
      resolveChain fb env st src = some (d, ["JSON"])) ∧
    (∀ (fb : Bool) (env : Env) (st : St) (src t1 : String),
      env.exif src (mediaTag (extOf src)) = "" →
      hasKeyA st.files (src ++ ".json") = false →
      hasKeyA st.files (thmPathOf src) = true →
      env.exif (thmPathOf src) "CreateDate" = t1 →
      ¬ t1 = "" →
      resolveChain fb env st src = some (t1, ["THM"])) ∧
    (∀ (cfg : Config) (env : Env) (st : St) (src d : String) (ms : List String)
        (sinfo jinfo : FileInfo),
      cfg.preview = false →
      resolveChain cfg.fallbackToMtime env st src = some (d, ms) →
      ¬ d = "" → isFullDate d = true →
      lookupA st.files (plainTargetFor cfg env d (nameOf src)) = none →
      lookupA st.files src = some sinfo →
      hasKeyA st.files (thmPathOf src) = false →
      lookupA st.files (src ++ ".json") = some jinfo →
      ¬ thmPathOf src = plainTargetFor cfg env d (nameOf src) →
      ¬ src ++ ".json" = plainTargetFor cfg env d (nameOf src) →
      hasKeyA st.files (destDirFor cfg d ++ "/" ++ nameOf (src ++ ".json")) = false →
      ¬ destDirFor cfg d ++ "/" ++ nameOf (src ++ ".json") =
        plainTargetFor cfg env d (nameOf src) →
      ¬ destDirFor cfg d ++ "/" ++ nameOf (src ++ ".json") = src →
      (process_file cfg env st src).decision =
        Decision.plainMove (plainTargetFor cfg env d (nameOf src)) ∧
      lookupA (process_file cfg env st src).st.files
        (plainTargetFor cfg env d (nameOf src)) = some sinfo ∧
      lookupA (process_file cfg env st src).st.files
        (destDirFor cfg d ++ "/" ++ nameOf (src ++ ".json")) = some jinfo) := by
  refine ⟨?_, ?_, ?_⟩
  · intro fb env st src d he hj hm
    exact resolveChain_json_some fb env st src d he hj hm
  · intro fb env st src t1 he hj ht hv hne
    exact resolveChain_thm_some fb env st src t1 he hj ht hv hne
  · intro cfg env st src d ms sinfo jinfo hp hchain hd0 hfd hocc hsrc hthm hjson
      hthm1 hjson1 hjd hjd1 hjd2
    rw [process_file_valid cfg env st src d ms hchain hd0 hfd, phaseDest_eq]
    have hfiles :
        (phaseRotate (mkDestDirs cfg st d) (monthKeyFor d) (monthLogFor cfg d)).1.files =
          st.files := by
      rw [phaseRotate_files]
      exact rfl
    have hocc2 : lookupA
        (phaseRotate (mkDestDirs cfg st d) (monthKeyFor d) (monthLogFor cfg d)).1.files
        (plainTargetFor cfg env d (nameOf src)) = none := by
      rw [hfiles]; exact hocc
    have hsrc2 : lookupA
        (phaseRotate (mkDestDirs cfg st d) (monthKeyFor d) (monthLogFor cfg d)).1.files
        src = some sinfo := by
      rw [hfiles]; exact hsrc
    have hthm3 : hasKeyA
        (phaseRotate (mkDestDirs cfg st d) (monthKeyFor d) (monthLogFor cfg d)).1.files
        (thmPathOf src) = false := by
      unfold hasKeyA
      rw [hfiles]
      exact hthm
    have hjson3 : lookupA
        (phaseRotate (mkDestDirs cfg st d) (monthKeyFor d) (monthLogFor cfg d)).1.files
        (src ++ ".json") = some jinfo := by
      rw [hfiles]; exact hjson
    have hjd3 : hasKeyA
        (phaseRotate (mkDestDirs cfg st d) (monthKeyFor d) (monthLogFor cfg d)).1.files
        (destDirFor cfg d ++ "/" ++ nameOf (src ++ ".json")) = false := by
      unfold hasKeyA
      rw [hfiles]
      exact hjd
    rw [phaseConflict_unoccupied cfg env _ src d _ hocc2]
    exact finishMove_json_facts cfg env
      (phaseRotate (mkDestDirs cfg st d) (monthKeyFor d) (monthLogFor cfg d)).1
      src (plainTargetFor cfg env d (nameOf src)) (destDirFor cfg d) (monthLogFor cfg d)
      Decision.plainMove false
      (phaseRotate (mkDestDirs cfg st d) (monthKeyFor d) (monthLogFor cfg d)).2 sinfo jinfo
      hp hsrc2 hthm3 hjson3 hthm1 hjson1 hjd3 hjd1 hjd2

def cfgC7w : Config := ⟨"t", false, false, false⟩

def envC7w : Env :=
  ⟨fun _ _ => "",
    fun p => if p = "s/IMG_0001.jpg.json" then some "2021-05-03 10:00:00" else none,
    fun _ => "", "S", "I", id⟩

def stC7w : St :=
  ⟨[("s/IMG_0001.jpg", ⟨1, 1, 1⟩), ("s/IMG_0001.jpg.json", ⟨9, 9, 9⟩)], [], ["s"], []⟩

/-- Witness for C7: the sidecar at the full-name-plus-json path resolves the
date and is moved into the destination month directory with the item. -/
theorem C7_witness :
    resolveChain false envC7w stC7w "s/IMG_0001.jpg" =
      some ("2021-05-03 10:00:00", ["JSON"]) ∧
    (process_file cfgC7w envC7w stC7w "s/IMG_0001.jpg").decision =
      Decision.plainMove "t/2021/05/IMG_0001.jpg" ∧
    lookupA (process_file cfgC7w envC7w stC7w "s/IMG_0001.jpg").st.files
      "t/2021/05/IMG_0001.jpg.json" = some ⟨9, 9, 9⟩ :=
  have h3 := C7_amended_companions.2.2 cfgC7w envC7w stC7w "s/IMG_0001.jpg"
    "2021-05-03 10:00:00" ["JSON"] ⟨1, 1, 1⟩ ⟨9, 9, 9⟩ rfl (by decide) (by decide)
    (by decide) (by decide) (by decide) (by decide) (by decide) (by decide) (by decide)
    (by decide) (by decide) (by decide)
  ⟨C7_amended_companions.1 false envC7w stC7w "s/IMG_0001.jpg" "2021-05-03 10:00:00"
      (by decide) (by decide) (by decide),
    h3.1, h3.2.2⟩

/-! ## Preview versus non-preview (C2) -/

@[simp]
theorem finishMove_decision (cfg : Config) (env : Env) (st : St)
    (src tgt destDir monthLog : String) (mk : String → Decision) (hashed : Bool)
    (rotated : Option String) :
    (finishMove cfg env st src tgt destDir monthLog mk hashed rotated).decision = mk tgt := by
  unfold finishMove
  split <;> rfl

@[simp]
theorem finishMove_preview_true (t : String) (f r : Bool) (env : Env) (st : St)
    (src tgt destDir monthLog : String) (mk : String → Decision) (hashed : Bool)
    (rotated : Option String) :
    (finishMove ⟨t, true, f, r⟩ env st src tgt destDir monthLog mk hashed rotated).st = st := by
  unfold finishMove
  rw [if_pos rfl]

theorem destDirFor_mk (t : String) (p f r : Bool) (d : String) :
    destDirFor ⟨t, p, f, r⟩ d =
      t ++ "/" ++ (yearMonthOf d).1 ++ "/" ++ (yearMonthOf d).2 := rfl

theorem monthLogFor_mk (t : String) (p f r : Bool) (d : String) :
    monthLogFor ⟨t, p, f, r⟩ d =
      t ++ "/" ++ (yearMonthOf d).1 ++ "/" ++ (yearMonthOf d).2 ++ "/media_organizer.log" := rfl

theorem plainTargetFor_mk (t : String) (p f r : Bool) (env : Env) (d base : String) :
    plainTargetFor ⟨t, p, f, r⟩ env d base =
      t ++ "/" ++ (yearMonthOf d).1 ++ "/" ++ (yearMonthOf d).2 ++ "/" ++
        tgtNameFor env base := rfl

theorem mkDestDirs_mk (t : String) (p f r : Bool) (st : St) (d : String) :
    mkDestDirs ⟨t, p, f, r⟩ st d =
      { st with
          dirs := addDir (addDir (addDir st.dirs t) (t ++ "/" ++ (yearMonthOf d).1))
            (t ++ "/" ++ (yearMonthOf d).1 ++ "/" ++ (yearMonthOf d).2) } := rfl

/-- The per-item classification reached by `phaseConflict` does not depend
on the preview flag, and with preview on, its state introduces no file entry
that was not already in the incoming state. -/
theorem phaseConflict_preview_pair (t : String) (f r : Bool) (env : Env) (S : St)
    (src d : String) (rot : Option String) :
    (phaseConflict ⟨t, true, f, r⟩ env S src d rot).decision =
      (phaseConflict ⟨t, false, f, r⟩ env S src d rot).decision ∧
    (∀ (k : String) (v : FileInfo),
      lookupA (phaseConflict ⟨t, true, f, r⟩ env S src d rot).st.files k = some v →
      lookupA S.files k = some v) := by
  unfold phaseConflict
  dsimp only
  simp only [plainTargetFor_mk, destDirFor_mk, monthLogFor_mk]
  cases ho : lookupA S.files
      (t ++ "/" ++ (yearMonthOf d).1 ++ "/" ++ (yearMonthOf d).2 ++ "/" ++
        tgtNameFor env (nameOf src)) with
  | none =>
    constructor
    · simp only [finishMove_decision]
    · intro k v h
      simp only [finishMove_preview_true] at h
      exact h
  | some tinfo =>
    dsimp only
    cases hs : lookupA S.files src with
    | none => exact ⟨rfl, fun k v h => h⟩
    | some sinfo =>
      dsimp only
      by_cases hsz : sinfo.size = tinfo.size
      · rw [if_neg (not_not_intro hsz), if_neg (not_not_intro hsz)]
        by_cases hh : sinfo.hash = tinfo.hash
        · rw [if_pos hh, if_pos hh]
          by_cases hr2 : r = true
          · refine ⟨rfl, fun k v h => ?_⟩
            rw [if_pos hr2] at h
            by_cases hk : k = src
            · rw [hk, lookupA_delA_self] at h
              exact Option.noConfusion h
            · rw [lookupA_delA_ne _ _ _ hk] at h
              exact h
          · refine ⟨rfl, fun k v h => ?_⟩
            rw [if_neg hr2] at h
            exact h
        · rw [if_neg hh, if_neg hh]
          constructor
          · simp only [finishMove_decision]
          · intro k v h
            simp only [finishMove_preview_true] at h
            exact h
      · rw [if_pos hsz, if_pos hsz]
        constructor
        · simp only [finishMove_decision]
        · intro k v h
          simp only [finishMove_preview_true] at h
          exact h

/-- **C2 (amended).**  From the same pre-state, a preview run reaches the
same per-item classification decision as the non-preview run, and it never
moves or creates a file: every file entry of its resulting state was already
present in the pre-state (its only file mutation is deleting the source of a
confirmed duplicate when duplicate removal is enabled).  It does however
keep the directory creation and monthly-log rotation bookkeeping of a
non-preview run, as the counterexample shows. -/
theorem C2_preview_decision_no_new_files (t : String) (f r : Bool) (env : Env) (st : St)
    (src : String) :
    (process_file ⟨t, true, f, r⟩ env st src).decision =
      (process_file ⟨t, false, f, r⟩ env st src).decision ∧
    (∀ (k : String) (v : FileInfo),
      lookupA (process_file ⟨t, true, f, r⟩ env st src).st.files k = some v →
      lookupA st.files k = some v) := by
  unfold process_file
  dsimp only
  cases hrc : resolveChain f env st src with
  | none => exact ⟨rfl, fun k v h => h⟩
  | some dm =>
    dsimp only
    by_cases hv : dm.1 = "" ∨ ¬ isFullDate dm.1 = true
    · rw [if_pos hv, if_pos hv]
      exact ⟨rfl, fun k v h => h⟩
    · rw [if_neg hv, if_neg hv]
      rw [phaseDest_eq, phaseDest_eq]
      simp only [mkDestDirs_mk, monthLogFor_mk]
      refine ⟨(phaseConflict_preview_pair t f r env _ src dm.1 _).1, fun k v h => ?_⟩
      have h2 := (phaseConflict_preview_pair t f r env _ src dm.1 _).2 k v h
      rw [phaseRotate_files] at h2
      exact h2

/-- Witness for C2 at the concrete duplicate scenario: same decision with
and without preview, and the destination occupant entry of the preview
result was already present in the pre-state. -/
theorem C2_witness :
    (process_file cfgC2p envC2x stC2x "s/a.jpg").decision =
      (process_file cfgC2n envC2x stC2x "s/a.jpg").decision ∧
    lookupA stC2x.files "t/2021/05/a.jpg" = some ⟨5, 7, 2⟩ :=
  ⟨(C2_preview_decision_no_new_files "t" false true envC2x stC2x "s/a.jpg").1,
   (C2_preview_decision_no_new_files "t" false true envC2x stC2x "s/a.jpg").2
     "t/2021/05/a.jpg" ⟨5, 7, 2⟩ (by decide)⟩
